import Mathlib

/-!
Shallow embedding of `src/metrics.py` (rafaelpadilla/vdao-anomaly).

Tensors are modelled as `List ℚ` (float arithmetic modelled exactly over the
rationals), Keras backend variables become explicit state passing, and the
stateful metric "layers" become structures whose update operation returns the
new state together with the returned scalar.
-/

namespace Metrics

/-- Module-level constant `EPS = 1e-8`. -/
def EPS : ℚ := 1 / 100000000

/-- Binarization used by `_sanitize`: `y_pred > threshold` cast to float,
i.e. 1 when the score is strictly greater than the threshold, else 0. -/
def binarize (threshold p : ℚ) : ℚ := if threshold < p then 1 else 0

/-- `_sanitize(y_true, y_pred, threshold)`: cast `y_true` to float (identity
in the rational model) and binarize `y_pred` against the threshold. -/
def _sanitize (y_true y_pred : List ℚ) (threshold : ℚ) : List ℚ × List ℚ :=
  (y_true, y_pred.map (binarize threshold))

/-- Elementwise `K.equal` cast to float: 1 where the entries agree, else 0. -/
def kEqual (a b : List ℚ) : List ℚ :=
  List.zipWith (fun x y => if x = y then (1 : ℚ) else 0) a b

/-- Elementwise `tf.logical_not(K.equal(...))` cast to float. -/
def kNotEqual (a b : List ℚ) : List ℚ :=
  List.zipWith (fun x y => if x = y then (0 : ℚ) else 1) a b

/-- Elementwise comparison of a tensor with the scalar 0 (`K.equal(y_true, 0)`
cast to float), broadcast over the list. -/
def kEqualZero (a : List ℚ) : List ℚ :=
  a.map (fun x => if x = 0 then (1 : ℚ) else 0)

/-- Elementwise tensor product. -/
def kMul (a b : List ℚ) : List ℚ := List.zipWith (· * ·) a b

/-- `_tp`: sum of `good_preds * y_true` where `good_preds = equal(y_pred, y_true)`. -/
def _tp (y_true y_pred : List ℚ) : ℚ := (kMul (kEqual y_pred y_true) y_true).sum

/-- `_tn`: sum of `good_preds * equal(y_true, 0)`. -/
def _tn (y_true y_pred : List ℚ) : ℚ :=
  (kMul (kEqual y_pred y_true) (kEqualZero y_true)).sum

/-- `_fp`: sum of `bad_preds * equal(y_true, 0)` where
`bad_preds = logical_not(equal(y_pred, y_true))`. -/
def _fp (y_true y_pred : List ℚ) : ℚ :=
  (kMul (kNotEqual y_pred y_true) (kEqualZero y_true)).sum

/-- `_fn`: sum of `bad_preds * y_true`. -/
def _fn (y_true y_pred : List ℚ) : ℚ := (kMul (kNotEqual y_pred y_true) y_true).sum

/-- `_tp_tn_fp_fn`: the four confusion counts bundled together. -/
def _tp_tn_fp_fn (y_true y_pred : List ℚ) : ℚ × ℚ × ℚ × ℚ :=
  (_tp y_true y_pred, _tn y_true y_pred, _fp y_true y_pred, _fn y_true y_pred)

/-- State of the `FalsePosRate` layer: configuration plus the two running
counters (`K.variable` values, initialized to 0 by `__init__`). -/
structure FalsePosRate where
  threshold : ℚ
  eps : ℚ
  fp : ℚ
  tn : ℚ

/-- `FalsePosRate.__init__(threshold, eps)`: counters start at 0. -/
def FalsePosRate.init (threshold eps : ℚ) : FalsePosRate :=
  { threshold := threshold, eps := eps, fp := 0, tn := 0 }

/-- `FalsePosRate.reset_states`: zero both counters. -/
def FalsePosRate.reset_states (s : FalsePosRate) : FalsePosRate :=
  { s with fp := 0, tn := 0 }

/-- `FalsePosRate.__call__(y_true, y_pred)`: sanitize, compute batch fp/tn,
add them to the running counters, and return the cumulative ratio
`fp / (fp + tn + eps)`. -/
def FalsePosRate.call (s : FalsePosRate) (y_true y_pred : List ℚ) :
    FalsePosRate × ℚ :=
  let sp := _sanitize y_true y_pred s.threshold
  let false_pos := _fp sp.1 sp.2
  let true_neg := _tn sp.1 sp.2
  let s1 := { s with fp := s.fp + false_pos, tn := s.tn + true_neg }
  (s1, s1.fp / (s1.fp + s1.tn + s1.eps))

/-- Run a sequence of update calls on a `FalsePosRate` accumulator, returning
the final state and the value returned by the last call (`none` when no call
was made). -/
def FalsePosRate.run (s : FalsePosRate) :
    List (List ℚ × List ℚ) → FalsePosRate × Option ℚ
  | [] => (s, none)
  | b :: bs =>
    let c := FalsePosRate.call s b.1 b.2
    let rest := FalsePosRate.run c.1 bs
    (rest.1, some (rest.2.getD c.2))

/-- Batch-level false-positive count of one batch after sanitization. -/
def batchFp (threshold : ℚ) (b : List ℚ × List ℚ) : ℚ :=
  _fp (_sanitize b.1 b.2 threshold).1 (_sanitize b.1 b.2 threshold).2

/-- Batch-level true-negative count of one batch after sanitization. -/
def batchTn (threshold : ℚ) (b : List ℚ × List ℚ) : ℚ :=
  _tn (_sanitize b.1 b.2 threshold).1 (_sanitize b.1 b.2 threshold).2

/-- Python `'{:d}'.format(x)`: formats an integer; raises `ValueError:
Unknown format code` when the value is not an integer (which is what happens
for any non-integer `beta` passed to `FBetaScore`). -/
def pyFormatD (q : ℚ) : Except String String :=
  if q.den = 1 then Except.ok (toString q.num)
  else Except.error "Unknown format code d for object of type float"

/-- State of the `FBetaScore` layer: derived name, configuration, the three
running counters, and the squared beta precomputed by `__init__`. -/
structure FBetaScore where
  name : String
  threshold : ℚ
  eps : ℚ
  tp : ℚ
  fn : ℚ
  fp : ℚ
  beta2 : ℚ
deriving DecidableEq

/-- `FBetaScore.__init__(beta, threshold, eps)`: derives the layer name via
`'f{:d}'.format(beta)` (which fails for non-integer beta), zeroes the
counters and precomputes `beta ** 2`. -/
def FBetaScore.init (beta threshold eps : ℚ) : Except String FBetaScore :=
  match pyFormatD beta with
  | Except.error e => Except.error e
  | Except.ok d =>
    Except.ok { name := "f" ++ d, threshold := threshold, eps := eps,
                tp := 0, fn := 0, fp := 0, beta2 := beta ^ 2 }

/-- `FBetaScore.reset_states`: zero the three counters. -/
def FBetaScore.reset_states (s : FBetaScore) : FBetaScore :=
  { s with tp := 0, fn := 0, fp := 0 }

/-- `FBetaScore.__call__(y_true, y_pred)`: sanitize, accumulate batch
tp/fn/fp, and return
`(1+beta2)·tp / ((1+beta2)·tp + beta2·fn + fp + eps)` on the cumulative
counters. -/
def FBetaScore.call (s : FBetaScore) (y_true y_pred : List ℚ) :
    FBetaScore × ℚ :=
  let sp := _sanitize y_true y_pred s.threshold
  let s1 := { s with tp := s.tp + _tp sp.1 sp.2,
                     fn := s.fn + _fn sp.1 sp.2,
                     fp := s.fp + _fp sp.1 sp.2 }
  (s1, (1 + s.beta2) * s1.tp /
        ((1 + s.beta2) * s1.tp + s.beta2 * s1.fn + s1.fp + s.eps))

/-- Precision computed from cumulative counters, `tp / (tp + fp + eps)` —
the reference formula named by the specification (claim C7). -/
def precisionFormula (tp fp eps : ℚ) : ℚ := tp / (tp + fp + eps)

/-- Result of a numpy reduction that may collapse to the 0-d `nan` scalar:
`np.mean(xs, axis=0)` and `np.std(xs, axis=0)` yield that scalar (with a
runtime warning, not an exception) when `xs` is empty. -/
inductive NpArr where
  | nanScalar : NpArr
  | arr : List ℚ → NpArr
deriving DecidableEq

/-- The comparator selected by the ROC constructor
(`np.argmax if op == 'max' else np.argmin`). -/
inductive ArgCmp where
  | argmax : ArgCmp
  | argmin : ArgCmp
deriving DecidableEq

/-- `np.linspace(a, b, n)`: `n` evenly spaced points from `a` to `b`. -/
def linspace (a b : ℚ) (n : Nat) : List ℚ :=
  (List.range n).map (fun i => a + (b - a) * i / (n - 1))

/-- Index of the first maximal element (`np.argmax`); `none` models the
`ValueError` numpy raises on an empty array. Helper walking the tail while
remembering the best index and value seen so far. -/
def argmaxGo : List ℚ → Nat → Nat → ℚ → Nat
  | [], _, bi, _ => bi
  | y :: ys, i, bi, bv => if bv < y then argmaxGo ys (i + 1) i y else argmaxGo ys (i + 1) bi bv

/-- `np.argmax` over a rank-1 array. -/
def npArgmax : List ℚ → Option Nat
  | [] => none
  | x :: xs => some (argmaxGo xs 1 0 x)

/-- Helper for `np.argmin`, symmetric to `argmaxGo`. -/
def argminGo : List ℚ → Nat → Nat → ℚ → Nat
  | [], _, bi, _ => bi
  | y :: ys, i, bi, bv => if y < bv then argminGo ys (i + 1) i y else argminGo ys (i + 1) bi bv

/-- `np.argmin` over a rank-1 array. -/
def npArgmin : List ℚ → Option Nat
  | [] => none
  | x :: xs => some (argminGo xs 1 0 x)

/-- Apply the configured comparator. -/
def ArgCmp.apply : ArgCmp → List ℚ → Option Nat
  | ArgCmp.argmax, l => npArgmax l
  | ArgCmp.argmin, l => npArgmin l

/-- One-point linear interpolation of `np.interp` against the sample points
`pts = zip(xp, fp)`: boundary values outside the observed range, linear
interpolation inside. numpy raises on an empty `xp`; that case is
unreachable for `roc_curve` outputs and is mapped to 0 here. -/
def interpAt : List (ℚ × ℚ) → ℚ → ℚ
  | [], _ => 0
  | (x1, f1) :: rest, x =>
    if x ≤ x1 then f1
    else
      match rest with
      | [] => f1
      | (x2, f2) :: _ =>
        if x ≤ x2 then f1 + (f2 - f1) * (x - x1) / (x2 - x1)
        else interpAt rest x

/-- `scipy.interp(x, xp, fp)` (alias of `np.interp`): resample `fp` onto the
grid `x`. -/
def interp (x xp fp : List ℚ) : List ℚ := x.map (interpAt (xp.zip fp))

/-- Consecutive differences, `np.diff`. -/
def npDiff : List ℚ → List ℚ
  | [] => []
  | [_] => []
  | a :: b :: rest => (b - a) :: npDiff (b :: rest)

/-- Trapezoidal rule over the points `zip(x, y)` (`np.trapz(y, x)`). -/
def trapzGo : List (ℚ × ℚ) → ℚ
  | [] => 0
  | [_] => 0
  | a :: b :: rest => (b.1 - a.1) * (a.2 + b.2) / 2 + trapzGo (b :: rest)

/-- `np.trapz(y, x)`. -/
def trapz (y x : List ℚ) : ℚ := trapzGo (x.zip y)

/-- `sklearn.metrics.auc(x, y)`: validates shapes, requires at least two
points, determines the sweep direction from `np.diff(x)` (raising when `x`
is neither increasing nor decreasing), and integrates by the trapezoidal
rule. -/
def auc (x y : List ℚ) : Except String ℚ :=
  if x.length ≠ y.length then
    Except.error "Found input variables with inconsistent numbers of samples"
  else if x.length < 2 then
    Except.error "At least 2 points are needed to compute area under curve"
  else
    let dx := npDiff x
    if dx.any (fun d => d < 0) then
      if dx.all (fun d => d ≤ 0) then Except.ok (-(trapz y x))
      else Except.error "x is neither increasing nor decreasing"
    else Except.ok (trapz y x)

/-- `sklearn.metrics.auc` applied to numpy values that may be the 0-d `nan`
scalar: its input validation (`check_consistent_length` / `_num_samples`)
raises a `TypeError` on such a singleton array. -/
def aucNp (x y : NpArr) : Except String ℚ :=
  match x, y with
  | NpArr.arr xs, NpArr.arr ys => auc xs ys
  | _, _ => Except.error "Singleton array cannot be considered a valid collection"

/-- `np.mean(xss, axis=0)` restricted to the nonempty rectangular case:
pointwise column means. -/
def npMeanAxis0Arr (xss : List (List ℚ)) : List ℚ :=
  match xss with
  | [] => []
  | y :: ys => (ys.foldl (List.zipWith (· + ·)) y).map (fun v => v / (xss.length : ℚ))

/-- `np.mean(xss, axis=0)`: the 0-d `nan` scalar on an empty list (numpy
warns but does not raise), pointwise means otherwise. -/
def npMeanAxis0 (xss : List (List ℚ)) : NpArr :=
  match xss with
  | [] => NpArr.nanScalar
  | _ => NpArr.arr (npMeanAxis0Arr xss)

/-- `np.std(xss, axis=0)`: the 0-d `nan` scalar on an empty list, otherwise
the pointwise square root of the mean squared deviation. The square root on
ℚ is kept abstract (`sq`): no claim inspects the numeric values of a
standard deviation. -/
def npStdAxis0 (sq : ℚ → ℚ) (xss : List (List ℚ)) : NpArr :=
  match xss with
  | [] => NpArr.nanScalar
  | _ =>
    let m := npMeanAxis0Arr xss
    let devs := xss.map (fun row => List.zipWith (fun v mu => (v - mu) ^ 2) row m)
    NpArr.arr ((npMeanAxis0Arr devs).map sq)

/-- `np.std(l)` on a rank-1 array: `nan` (modelled as `none`) on an empty
array, otherwise the square root (abstract `sq`) of the variance. -/
def npStd (sq : ℚ → ℚ) (l : List ℚ) : Option ℚ :=
  match l with
  | [] => none
  | _ => some (sq ((l.map (fun v => (v - l.sum / (l.length : ℚ)) ^ 2)).sum / (l.length : ℚ)))

/-- Write 1.0 into the last position (`arr[-1] = 1.0`). -/
def npSetLast : NpArr → NpArr
  | NpArr.nanScalar => NpArr.nanScalar
  | NpArr.arr xs => NpArr.arr (xs.set (xs.length - 1) 1)

/-- State of the `ROC` aggregator: fold histories, lazily cached aggregate
statistics (`None` until first computed; the cached `std_auc` itself may be
the `nan` produced from an empty fold list, hence the nested `Option`), the
configured metric and comparator, and the fixed interpolation grid. -/
structure ROC where
  inter_tprs : List (List ℚ)
  tprs : List (List ℚ)
  fprs : List (List ℚ)
  aucs : List ℚ
  mean_tpr : Option NpArr
  mean_auc : Option ℚ
  std_tpr : Option NpArr
  std_auc : Option (Option ℚ)
  func : List ℚ → List ℚ → List ℚ
  argcmp : ArgCmp
  mean_fpr : List ℚ

/-- `ROC.__init__(metric, op)`: empty histories, empty caches, comparator
chosen by `np.argmax if op == 'max' else np.argmin`, and the fixed grid
`np.linspace(0, 1, 100)`. -/
def ROC.init (metric : List ℚ → List ℚ → List ℚ) (op : String) : ROC :=
  { inter_tprs := [], tprs := [], fprs := [], aucs := [],
    mean_tpr := none, mean_auc := none, std_tpr := none, std_auc := none,
    func := metric,
    argcmp := if op = "max" then ArgCmp.argmax else ArgCmp.argmin,
    mean_fpr := linspace 0 1 100 }

/-- The value returned by `ROC.__call__` once the fold has been stored: the
comparator picks an index into the elementwise distances, and the pair
`(inter_tprs[-1][idx], dist[idx])` is returned (numpy raises on an empty
distance array and on an out-of-range index; both are modelled as errors). -/
def ROC.callReturn (argcmp : ArgCmp) (inter dist : List ℚ) : Except String (ℚ × ℚ) :=
  match argcmp.apply dist with
  | none => Except.error "attempt to get argmax of an empty sequence"
  | some idx =>
    match inter.get? idx, dist.get? idx with
    | some iv, some dv => Except.ok (iv, dv)
    | _, _ => Except.error "index out of range"

/-- `ROC.__call__(y_true, proba)` after the `roc_curve` call: the raw
`(fpr, tpr)` curve produced by `sklearn.metrics.roc_curve` is taken as
input (quantifying over it models every possible `roc_curve` output).
Appends the interpolated curve (first point forced to 0.0), the raw curve,
and — when `auc(fpr, tpr)` succeeds — this fold's AUC, then selects the
operating point via the configured metric and comparator. -/
def ROC.call (s : ROC) (fpr tpr : List ℚ) : ROC × Except String (ℚ × ℚ) :=
  let inter := (interp s.mean_fpr fpr tpr).set 0 0
  let s1 := { s with inter_tprs := s.inter_tprs ++ [inter],
                     tprs := s.tprs ++ [tpr],
                     fprs := s.fprs ++ [fpr] }
  match auc fpr tpr with
  | Except.error e => (s1, Except.error e)
  | Except.ok roc_auc =>
    ({ s1 with aucs := s1.aucs ++ [roc_auc] },
     ROC.callReturn s.argcmp inter (s.func tpr fpr))

/-- `ROC._mean`: recompute both cached mean statistics. `np.mean` over an
empty fold history yields the `nan` scalar, which is then rejected by the
input validation of `auc`, so the assignment to `mean_auc` never happens in
that case (the partially updated state is kept, as the Python attribute
assignment to `mean_tpr` precedes the raise). On success the last point of
the mean curve is forced to 1.0 after the AUC is computed. -/
def ROC.meanCompute (s : ROC) : ROC × Except String (NpArr × ℚ) :=
  let mt := npMeanAxis0 s.inter_tprs
  let s1 := { s with mean_tpr := some mt }
  match aucNp (NpArr.arr s.mean_fpr) mt with
  | Except.error e => (s1, Except.error e)
  | Except.ok a =>
    let mt2 := npSetLast mt
    ({ s1 with mean_tpr := some mt2, mean_auc := some a }, Except.ok (mt2, a))

/-- `ROC.mean()`: lazily compute and cache; once both cache fields are set,
later calls return the cached pair without recomputation. The final match
arm is unreachable (both fields are set whenever the recomputation is
skipped). -/
def ROC.mean (s : ROC) : ROC × Except String (NpArr × ℚ) :=
  if s.mean_tpr.isNone || s.mean_auc.isNone then ROC.meanCompute s
  else
    match s.mean_tpr, s.mean_auc with
    | some a, some b => (s, Except.ok (a, b))
    | _, _ => (s, Except.error "unreachable")

/-- `ROC._std`: recompute both cached std statistics; neither `np.std` call
can raise, an empty history silently yields `nan` values. -/
def ROC.stdCompute (sq : ℚ → ℚ) (s : ROC) : ROC :=
  { s with std_tpr := some (npStdAxis0 sq s.inter_tprs),
           std_auc := some (npStd sq s.aucs) }

/-- `ROC.std()`: lazily compute and cache, then return the cached pair.
Note a cached `nan` (from an empty history) is *not* `None`, so it is
returned again on later calls without recomputation. -/
def ROC.std (sq : ℚ → ℚ) (s : ROC) : ROC × (NpArr × Option ℚ) :=
  let s1 := if s.std_tpr.isNone || s.std_auc.isNone then ROC.stdCompute sq s else s
  (s1, (s1.std_tpr.getD NpArr.nanScalar, s1.std_auc.getD none))

/-- Repeated `evaluate` calls: fold the per-fold raw curves through
`ROC.call`, keeping only the evolving state. -/
def ROC.runFolds (s : ROC) (folds : List (List ℚ × List ℚ)) : ROC :=
  folds.foldl (fun st b => (ROC.call st b.1 b.2).1) s

/-- A concrete metric function, standing in for the caller-supplied
`metric` configuration of `ROC` in concrete instantiations. -/
def exampleMetric (tpr fpr : List ℚ) : List ℚ :=
  List.zipWith (fun t f => t - f) tpr fpr

/-- A concrete `ROC` state whose `mean` caches are already populated, as
they are after a successful `mean()` call. -/
def cachedExample : ROC :=
  { ROC.init exampleMetric "max" with
    mean_tpr := some (NpArr.arr [0, 1]), mean_auc := some 1 }

/-- A concrete `FBetaScore` state as produced by construction with
`beta = 0` (name `'f0'`, `beta2 = 0`, zeroed counters). -/
def fbetaZeroExample : FBetaScore :=
  { name := "f0", threshold := 1 / 2, eps := EPS,
    tp := 0, fn := 0, fp := 0, beta2 := 0 }

end Metrics

namespace Metrics

/-- Per-element contribution of the four counts, for the partition lemma. -/
theorem counts_cons (t p : ℚ) (ts ps : List ℚ) :
    _tp (t :: ts) (p :: ps)
      = (if p = t then (1 : ℚ) else 0) * t + _tp ts ps ∧
    _tn (t :: ts) (p :: ps)
      = (if p = t then (1 : ℚ) else 0) * (if t = 0 then (1 : ℚ) else 0) + _tn ts ps ∧
    _fp (t :: ts) (p :: ps)
      = (if p = t then (0 : ℚ) else 1) * (if t = 0 then (1 : ℚ) else 0) + _fp ts ps ∧
    _fn (t :: ts) (p :: ps)
      = (if p = t then (0 : ℚ) else 1) * t + _fn ts ps := by
  refine ⟨?_, ?_, ?_, ?_⟩ <;>
    simp [_tp, _tn, _fp, _fn, kMul, kEqual, kNotEqual, kEqualZero]

/-- Partition of the batch by the four raw counts, for 0/1 ground truth and
arbitrary (already binarized or not) predictions of the same length. -/
theorem counts_partition (y_true y_pred : List ℚ)
    (hlen : y_true.length = y_pred.length)
    (hlab : ∀ t ∈ y_true, t = 0 ∨ t = 1) :
    _tp y_true y_pred + _tn y_true y_pred + _fp y_true y_pred + _fn y_true y_pred
      = (y_true.length : ℚ) := by
  induction y_true generalizing y_pred with
  | nil =>
    cases y_pred with
    | nil => simp [_tp, _tn, _fp, _fn, kMul, kEqual, kNotEqual, kEqualZero]
    | cons p ps => simp at hlen
  | cons t ts ih =>
    cases y_pred with
    | nil => simp at hlen
    | cons p ps =>
      obtain ⟨h1, h2, h3, h4⟩ := counts_cons t p ts ps
      rw [h1, h2, h3, h4]
      have hlen' : ts.length = ps.length := by simpa using hlen
      have hlab' : ∀ x ∈ ts, x = 0 ∨ x = 1 := fun x hx => hlab x (List.mem_cons_of_mem _ hx)
      have iht := ih ps hlen' hlab'
      have ht : t = 0 ∨ t = 1 := hlab t (List.mem_cons_self _ _)
      have hhead :
          (if p = t then (1 : ℚ) else 0) * t
            + (if p = t then (1 : ℚ) else 0) * (if t = 0 then (1 : ℚ) else 0)
            + (if p = t then (0 : ℚ) else 1) * (if t = 0 then (1 : ℚ) else 0)
            + (if p = t then (0 : ℚ) else 1) * t = 1 := by
        have hab : (if p = t then (1 : ℚ) else 0) + (if p = t then (0 : ℚ) else 1) = 1 := by
          by_cases hp : p = t <;> simp [hp]
        have htz : t + (if t = 0 then (1 : ℚ) else 0) = 1 := by
          rcases ht with h | h <;> simp [h]
        nlinarith [hab, htz]
      have : (ts.length : ℚ) + 1 = ((t :: ts).length : ℚ) := by
        push_cast [List.length_cons]
        ring
      rw [← this, ← iht]
      ring_nf
      ring_nf at hhead ⊢
      nlinarith [hhead]

/-- C1: for equal-length `y_true` (labels in {0,1}) and raw scores `y_pred`,
after binarizing `y_pred` against any threshold, the four counts produced by
`_tp_tn_fp_fn` sum exactly to the batch size: they partition the batch. -/
theorem confusion_counts_partition (y_true y_pred : List ℚ) (threshold : ℚ)
    (hlen : y_true.length = y_pred.length)
    (hlab : ∀ t ∈ y_true, t = 0 ∨ t = 1) :
    (_tp_tn_fp_fn (_sanitize y_true y_pred threshold).1
        (_sanitize y_true y_pred threshold).2).1
      + (_tp_tn_fp_fn (_sanitize y_true y_pred threshold).1
          (_sanitize y_true y_pred threshold).2).2.1
      + (_tp_tn_fp_fn (_sanitize y_true y_pred threshold).1
          (_sanitize y_true y_pred threshold).2).2.2.1
      + (_tp_tn_fp_fn (_sanitize y_true y_pred threshold).1
          (_sanitize y_true y_pred threshold).2).2.2.2
      = (y_true.length : ℚ) := by
  have hl : (_sanitize y_true y_pred threshold).1.length
      = (_sanitize y_true y_pred threshold).2.length := by
    simp [_sanitize, hlen]
  have hlab2 : ∀ t ∈ (_sanitize y_true y_pred threshold).1, t = 0 ∨ t = 1 := by
    simpa [_sanitize] using hlab
  have := counts_partition _ _ hl hlab2
  simpa [_tp_tn_fp_fn, _sanitize] using this

/-- Witness for C1 at a concrete batch. -/
theorem confusion_counts_partition_witness :
    (([0, 1, 1, 0] : List ℚ).length = ([9/10, 3/10, 8/10, 1/10] : List ℚ).length
      ∧ ∀ t ∈ ([0, 1, 1, 0] : List ℚ), t = 0 ∨ t = 1)
    ∧ (_tp_tn_fp_fn (_sanitize [0, 1, 1, 0] [9/10, 3/10, 8/10, 1/10] (1/2)).1
        (_sanitize [0, 1, 1, 0] [9/10, 3/10, 8/10, 1/10] (1/2)).2).1
      + (_tp_tn_fp_fn (_sanitize [0, 1, 1, 0] [9/10, 3/10, 8/10, 1/10] (1/2)).1
          (_sanitize [0, 1, 1, 0] [9/10, 3/10, 8/10, 1/10] (1/2)).2).2.1
      + (_tp_tn_fp_fn (_sanitize [0, 1, 1, 0] [9/10, 3/10, 8/10, 1/10] (1/2)).1
          (_sanitize [0, 1, 1, 0] [9/10, 3/10, 8/10, 1/10] (1/2)).2).2.2.1
      + (_tp_tn_fp_fn (_sanitize [0, 1, 1, 0] [9/10, 3/10, 8/10, 1/10] (1/2)).1
          (_sanitize [0, 1, 1, 0] [9/10, 3/10, 8/10, 1/10] (1/2)).2).2.2.2
      = (([0, 1, 1, 0] : List ℚ).length : ℚ) :=
  ⟨⟨by decide, by decide⟩,
   confusion_counts_partition [0, 1, 1, 0] [9/10, 3/10, 8/10, 1/10] (1/2)
     (by decide) (by decide)⟩

/-- C10: in the shared sanitization step every accumulator uses, a score is
binarized to 1 exactly when it is strictly greater than the threshold; a
score equal to the threshold is binarized to 0. -/
theorem binarize_strict_threshold (threshold p : ℚ) (y_true y_pred : List ℚ) :
    (_sanitize y_true y_pred threshold).2 = y_pred.map (binarize threshold)
    ∧ (binarize threshold p = 1 ↔ threshold < p)
    ∧ (binarize threshold p = 0 ↔ ¬threshold < p)
    ∧ binarize threshold threshold = 0 := by
  refine ⟨rfl, ?_, ?_, ?_⟩
  · by_cases h : threshold < p <;> simp [binarize, h]
  · by_cases h : threshold < p <;> simp [binarize, h]
  · simp [binarize]

/-- C7: an `FBetaScore` accumulator whose stored `beta2` is 0 (as produced
by construction with `beta = 0`) returns, from every update call, exactly
the precision `tp / (tp + fp + eps)` of the updated cumulative counters;
the reduction is an identity of the single F-beta formula, and `beta2 = 0`
persists to every later call. -/
theorem fbeta_zero_equals_precision (s : FBetaScore) (h : s.beta2 = 0)
    (y_true y_pred : List ℚ) :
    (FBetaScore.call s y_true y_pred).2
      = precisionFormula (FBetaScore.call s y_true y_pred).1.tp
          (FBetaScore.call s y_true y_pred).1.fp s.eps
    ∧ (FBetaScore.call s y_true y_pred).1.beta2 = 0 := by
  constructor
  · simp [FBetaScore.call, precisionFormula, h]
  · simp [FBetaScore.call, h]

/-- Witness for C7 at the concrete zero-beta state and one concrete batch. -/
theorem fbeta_zero_equals_precision_witness :
    fbetaZeroExample.beta2 = 0
    ∧ ((FBetaScore.call fbetaZeroExample [1] [1]).2
        = precisionFormula (FBetaScore.call fbetaZeroExample [1] [1]).1.tp
            (FBetaScore.call fbetaZeroExample [1] [1]).1.fp fbetaZeroExample.eps
      ∧ (FBetaScore.call fbetaZeroExample [1] [1]).1.beta2 = 0) :=
  ⟨rfl, fbeta_zero_equals_precision fbetaZeroExample rfl [1] [1]⟩

/-- C9 (amended): constructing `FBetaScore` succeeds for every positive
*integer* beta, deriving the name `'f{beta}'` and precomputing `beta ** 2`;
non-integer beta makes the `'{:d}'` name format raise instead. -/
theorem fbeta_init_integer_beta (beta threshold eps : ℚ)
    (_hpos : 0 < beta) (hint : beta.den = 1) :
    FBetaScore.init beta threshold eps
      = Except.ok { name := "f" ++ toString beta.num, threshold := threshold,
                    eps := eps, tp := 0, fn := 0, fp := 0, beta2 := beta ^ 2 } := by
  simp [FBetaScore.init, pyFormatD, hint]

/-- Witness for the amended C9 at `beta = 2`. -/
theorem fbeta_init_integer_beta_witness :
    ((0 : ℚ) < 2 ∧ (2 : ℚ).den = 1)
    ∧ FBetaScore.init 2 (1/2) EPS
        = Except.ok { name := "f" ++ toString (2 : ℚ).num, threshold := 1/2,
                      eps := EPS, tp := 0, fn := 0, fp := 0, beta2 := (2 : ℚ) ^ 2 } :=
  ⟨⟨by decide, by decide⟩, fbeta_init_integer_beta 2 (1/2) EPS (by decide) (by decide)⟩

/-- Counterexample to C9 as stated: `beta = 1/2` is a positive real, yet
construction fails with the format error, because `'f{:d}'.format(beta)`
only accepts integers. -/
theorem fbeta_init_half_fails :
    FBetaScore.init (1/2) (1/2) EPS
      = Except.error "Unknown format code d for object of type float" := by
  have h : ((1/2 : ℚ)).den = 2 := by norm_num
  simp [FBetaScore.init, pyFormatD, h]

/-- The state after one `FalsePosRate` update: counters incremented by the
batch counts, configuration unchanged. -/
theorem fpr_call_fst (s : FalsePosRate) (a b : List ℚ) :
    (FalsePosRate.call s a b).1
      = { s with fp := s.fp + batchFp s.threshold (a, b),
                 tn := s.tn + batchTn s.threshold (a, b) } := rfl

/-- After running any batch list, the `FalsePosRate` counters hold the sums
of the per-batch counts and the configuration is unchanged. -/
theorem fpr_run_state (bs : List (List ℚ × List ℚ)) (s : FalsePosRate) :
    (FalsePosRate.run s bs).1.threshold = s.threshold
    ∧ (FalsePosRate.run s bs).1.eps = s.eps
    ∧ (FalsePosRate.run s bs).1.fp = s.fp + (bs.map (batchFp s.threshold)).sum
    ∧ (FalsePosRate.run s bs).1.tn = s.tn + (bs.map (batchTn s.threshold)).sum := by
  induction bs generalizing s with
  | nil => simp [FalsePosRate.run]
  | cons b bs ih =>
    obtain ⟨h1, h2, h3, h4⟩ := ih (FalsePosRate.call s b.1 b.2).1
    have hc1 : (FalsePosRate.call s b.1 b.2).1.threshold = s.threshold := rfl
    have hc2 : (FalsePosRate.call s b.1 b.2).1.eps = s.eps := rfl
    have hc3 : (FalsePosRate.call s b.1 b.2).1.fp = s.fp + batchFp s.threshold b := rfl
    have hc4 : (FalsePosRate.call s b.1 b.2).1.tn = s.tn + batchTn s.threshold b := rfl
    rw [hc1] at h1 h3 h4
    rw [hc2] at h2
    rw [hc3] at h3
    rw [hc4] at h4
    simp only [FalsePosRate.run]
    refine ⟨h1, h2, ?_, ?_⟩
    · rw [h3]
      simp [List.sum_cons]
      ring
    · rw [h4]
      simp [List.sum_cons]
      ring

/-- For a nonempty batch list, the value returned by the last update call is
the ratio computed from the final counters. -/
theorem fpr_run_val (bs : List (List ℚ × List ℚ)) (s : FalsePosRate) (h : bs ≠ []) :
    (FalsePosRate.run s bs).2
      = some ((FalsePosRate.run s bs).1.fp /
          ((FalsePosRate.run s bs).1.fp + (FalsePosRate.run s bs).1.tn
            + (FalsePosRate.run s bs).1.eps)) := by
  induction bs generalizing s with
  | nil => exact absurd rfl h
  | cons b bs ih =>
    cases bs with
    | nil => simp [FalsePosRate.run, FalsePosRate.call]
    | cons b2 bs2 =>
      have hr := ih (FalsePosRate.call s b.1 b.2).1 (by simp)
      simp only [FalsePosRate.run] at hr ⊢
      rw [hr]
      simp

/-- C2: after any nonempty sequence of update calls on a freshly
initialized (or reset) `FalsePosRate` accumulator, the value returned by
the last call is `fp_total / (fp_total + tn_total + eps)` where the totals
are the batch-level counts summed over all batches — the result depends
only on the combined counters, not on the batch split. -/
theorem fpr_accumulates_over_batches (threshold eps : ℚ)
    (bs : List (List ℚ × List ℚ)) (h : bs ≠ []) :
    (FalsePosRate.run (FalsePosRate.init threshold eps) bs).2
      = some ((bs.map (batchFp threshold)).sum /
          ((bs.map (batchFp threshold)).sum + (bs.map (batchTn threshold)).sum + eps)) := by
  obtain ⟨h1, h2, h3, h4⟩ := fpr_run_state bs (FalsePosRate.init threshold eps)
  rw [fpr_run_val bs _ h, h2, h3, h4]
  simp [FalsePosRate.init]

/-- Witness for C2 at a concrete two-batch split. -/
theorem fpr_accumulates_over_batches_witness :
    ([([0], [1]), ([0, 1], [1, 0])] : List (List ℚ × List ℚ)) ≠ []
    ∧ (FalsePosRate.run (FalsePosRate.init (1/2) EPS) [([0], [1]), ([0, 1], [1, 0])]).2
      = some ((([([0], [1]), ([0, 1], [1, 0])] : List (List ℚ × List ℚ)).map
            (batchFp (1/2))).sum /
          ((([([0], [1]), ([0, 1], [1, 0])] : List (List ℚ × List ℚ)).map
              (batchFp (1/2))).sum
            + (([([0], [1]), ([0, 1], [1, 0])] : List (List ℚ × List ℚ)).map
                (batchTn (1/2))).sum + EPS)) :=
  ⟨by simp, fpr_accumulates_over_batches (1/2) EPS [([0], [1]), ([0, 1], [1, 0])] (by simp)⟩

/-- C3 (amended): on a fresh aggregator (empty fold history), `std()` does
not raise at all — it silently returns the `nan` pair that `np.std`
produces on empty arrays — and `mean()` does raise, but with the
`TypeError` coming from `auc`'s input validation on the `nan` mean, not
with an explicit empty-state check. -/
theorem roc_empty_history_mean_std (f : List ℚ → List ℚ → List ℚ)
    (op : String) (sq : ℚ → ℚ) :
    (ROC.std sq (ROC.init f op)).2 = (NpArr.nanScalar, none)
    ∧ (ROC.mean (ROC.init f op)).2
        = Except.error "Singleton array cannot be considered a valid collection" := by
  exact ⟨rfl, rfl⟩

/-- Counterexample to C3 as stated: on a concrete fresh aggregator, `std()`
returns the silent `nan` pair — no empty-state error is signalled (the
operation has no error outcome at all on this path). -/
theorem roc_std_empty_returns_silent_nan :
    (ROC.std (fun q => q) (ROC.init exampleMetric "max")).2
      = (NpArr.nanScalar, none) := rfl

/-- C4 (amended): an `op` value other than `'max'` is accepted silently and
selects the minimizing comparator — the constructed aggregator is
indistinguishable from one constructed with `op = 'min'`. -/
theorem roc_init_non_max_op_selects_argmin (f : List ℚ → List ℚ → List ℚ)
    (op : String) (h : op ≠ "max") :
    (ROC.init f op).argcmp = ArgCmp.argmin
    ∧ ROC.init f op = ROC.init f "min" := by
  constructor
  · simp [ROC.init, h]
  · simp [ROC.init, h]

/-- Witness for the amended C4 at the concrete invalid option `'avg'`. -/
theorem roc_init_non_max_op_witness :
    ("avg" : String) ≠ "max"
    ∧ ((ROC.init exampleMetric "avg").argcmp = ArgCmp.argmin
      ∧ ROC.init exampleMetric "avg" = ROC.init exampleMetric "min") :=
  ⟨by decide, roc_init_non_max_op_selects_argmin exampleMetric "avg" (by decide)⟩

/-- Counterexample to C4 as stated: constructing with the invalid option
`'avg'` does not fail — it yields exactly the aggregator that `op = 'min'`
yields, comparator included. -/
theorem roc_init_invalid_op_no_error :
    (ROC.init exampleMetric "avg").argcmp = ArgCmp.argmin
    ∧ ROC.init exampleMetric "avg" = ROC.init exampleMetric "min" := by
  exact ⟨rfl, rfl⟩

/-- `Chain' (≤)` on the x-grid makes all consecutive differences
nonnegative, so `auc` never takes its reversed or error branch. -/
theorem chain_le_diff_not_neg (x : List ℚ) (h : List.Chain' (· ≤ ·) x) :
    (npDiff x).any (fun d => d < 0) = false := by
  induction x with
  | nil => rfl
  | cons a l ih =>
    cases l with
    | nil => rfl
    | cons b l2 =>
      rw [List.chain'_cons] at h
      have hd : ¬(b - a < 0) := not_lt.mpr (sub_nonneg.mpr h.1)
      simp [npDiff, ih h.2, hd]

/-- Under the shape guarantees of `roc_curve` output (at least two points,
equal lengths, nondecreasing fpr), `auc` succeeds with the trapezoidal
integral. -/
theorem auc_ok (x y : List ℚ) (h1 : 2 ≤ x.length) (h2 : y.length = x.length)
    (h3 : List.Chain' (· ≤ ·) x) : auc x y = Except.ok (trapz y x) := by
  unfold auc
  rw [if_neg (by omega), if_neg (by omega)]
  simp [chain_le_diff_not_neg x h3]

/-- The fold histories after `ROC.call`: the three curve lists always get
exactly the new fold appended, whatever `auc` returns. -/
theorem roc_call_fst_curves (s : ROC) (fpr tpr : List ℚ) :
    (ROC.call s fpr tpr).1.inter_tprs
        = s.inter_tprs ++ [(interp s.mean_fpr fpr tpr).set 0 0]
    ∧ (ROC.call s fpr tpr).1.tprs = s.tprs ++ [tpr]
    ∧ (ROC.call s fpr tpr).1.fprs = s.fprs ++ [fpr] := by
  unfold ROC.call
  cases auc fpr tpr <;> simp

/-- C6: under the shape guarantees of `roc_curve` output, each `evaluate`
call appends exactly one fold — one raw `(fpr, tpr)` curve, one
interpolated curve, one AUC — to the history, leaving every previously
stored fold unchanged (the old histories are preserved as prefixes). -/
theorem roc_call_appends_one_fold (s : ROC) (fpr tpr : List ℚ)
    (h1 : 2 ≤ fpr.length) (h2 : tpr.length = fpr.length)
    (h3 : List.Chain' (· ≤ ·) fpr) :
    (ROC.call s fpr tpr).1.inter_tprs
        = s.inter_tprs ++ [(interp s.mean_fpr fpr tpr).set 0 0]
    ∧ (ROC.call s fpr tpr).1.tprs = s.tprs ++ [tpr]
    ∧ (ROC.call s fpr tpr).1.fprs = s.fprs ++ [fpr]
    ∧ (ROC.call s fpr tpr).1.aucs = s.aucs ++ [trapz tpr fpr] := by
  unfold ROC.call
  rw [auc_ok fpr tpr h1 h2 h3]
  simp

/-- Witness for C6 at a concrete fold. -/
theorem roc_call_appends_one_fold_witness :
    (2 ≤ ([0, 1] : List ℚ).length ∧ ([0, 1] : List ℚ).length = ([0, 1] : List ℚ).length
      ∧ List.Chain' (· ≤ ·) ([0, 1] : List ℚ))
    ∧ ((ROC.call (ROC.init exampleMetric "max") [0, 1] [0, 1]).1.inter_tprs
        = (ROC.init exampleMetric "max").inter_tprs
          ++ [(interp (ROC.init exampleMetric "max").mean_fpr [0, 1] [0, 1]).set 0 0]
      ∧ (ROC.call (ROC.init exampleMetric "max") [0, 1] [0, 1]).1.tprs
          = (ROC.init exampleMetric "max").tprs ++ [[0, 1]]
      ∧ (ROC.call (ROC.init exampleMetric "max") [0, 1] [0, 1]).1.fprs
          = (ROC.init exampleMetric "max").fprs ++ [[0, 1]]
      ∧ (ROC.call (ROC.init exampleMetric "max") [0, 1] [0, 1]).1.aucs
          = (ROC.init exampleMetric "max").aucs ++ [trapz [0, 1] [0, 1]]) :=
  ⟨⟨by decide, rfl, by norm_num [List.chain'_cons]⟩,
   roc_call_appends_one_fold (ROC.init exampleMetric "max") [0, 1] [0, 1]
     (by decide) rfl (by norm_num [List.chain'_cons])⟩

/-- C8: for every `evaluate` call on an aggregator whose interpolation grid
is nonempty (as the constructed 100-point grid always is), the interpolated
curve stored for the new fold starts with exactly 0, whatever the raw curve
contains. -/
theorem roc_interp_first_point_zero (s : ROC) (fpr tpr : List ℚ)
    (h : s.mean_fpr ≠ []) :
    ∃ c, (ROC.call s fpr tpr).1.inter_tprs.getLast? = some c
      ∧ c.head? = some 0 := by
  refine ⟨(interp s.mean_fpr fpr tpr).set 0 0, ?_, ?_⟩
  · rw [(roc_call_fst_curves s fpr tpr).1]
    simp
  · cases hi : interp s.mean_fpr fpr tpr with
    | nil =>
      exact absurd (by simpa [interp] using congrArg List.length hi) (by simpa using h)
    | cons q qs => simp [List.set]

/-- Witness for C8 on the freshly constructed aggregator (its grid is the
100-point linspace) and a concrete raw curve. -/
theorem roc_interp_first_point_zero_witness :
    (ROC.init exampleMetric "max").mean_fpr ≠ []
    ∧ ∃ c, (ROC.call (ROC.init exampleMetric "max") [0, 1] [1, 1]).1.inter_tprs.getLast?
        = some c ∧ c.head? = some 0 :=
  ⟨by simp [ROC.init, linspace, List.range_succ],
   roc_interp_first_point_zero (ROC.init exampleMetric "max") [0, 1] [1, 1]
     (by simp [ROC.init, linspace, List.range_succ])⟩

/-- When both `mean` cache fields are populated, `mean()` returns the
cached pair and leaves the state untouched. -/
theorem mean_cached (s : ROC) (a : NpArr) (b : ℚ)
    (ha : s.mean_tpr = some a) (hb : s.mean_auc = some b) :
    ROC.mean s = (s, Except.ok (a, b)) := by
  simp [ROC.mean, ha, hb]

/-- A successful `mean()` call leaves both cache fields populated with the
returned pair. -/
theorem mean_ok_caches (s : ROC) (v : NpArr × ℚ)
    (h : (ROC.mean s).2 = Except.ok v) :
    (ROC.mean s).1.mean_tpr = some v.1 ∧ (ROC.mean s).1.mean_auc = some v.2 := by
  rcases hm : s.mean_tpr with _ | a <;> rcases hn : s.mean_auc with _ | b
  case some.some =>
    simp only [ROC.mean, hm, hn, Option.isNone_some, Bool.or_self, Bool.false_eq_true,
      if_false] at h ⊢
    simp at h
    simp [hm, hn, ← h]
  all_goals
    simp only [ROC.mean, hm, hn, Option.isNone_none, Option.isNone_some, Bool.or_true,
      Bool.true_or, if_true, ROC.meanCompute] at h ⊢
  all_goals
    rcases haux : aucNp (NpArr.arr s.mean_fpr) (npMeanAxis0 s.inter_tprs) with e | a2
  all_goals simp [haux] at h ⊢
  all_goals simp [← h]

/-- `std()` always leaves both of its cache fields populated with the
returned pair, and never touches the `mean` caches. -/
theorem std_result (sq : ℚ → ℚ) (s : ROC) :
    (ROC.std sq s).1.std_tpr = some (ROC.std sq s).2.1
    ∧ (ROC.std sq s).1.std_auc = some (ROC.std sq s).2.2
    ∧ (ROC.std sq s).1.mean_tpr = s.mean_tpr
    ∧ (ROC.std sq s).1.mean_auc = s.mean_auc := by
  rcases hm : s.std_tpr with _ | a <;> rcases hn : s.std_auc with _ | b <;>
    simp [ROC.std, ROC.stdCompute, hm, hn]

/-- When both `std` cache fields are populated, `std()` returns the cached
pair and leaves the state untouched. -/
theorem std_cached (sq : ℚ → ℚ) (s : ROC) (a : NpArr) (b : Option ℚ)
    (ha : s.std_tpr = some a) (hb : s.std_auc = some b) :
    ROC.std sq s = (s, (a, b)) := by
  simp [ROC.std, ha, hb]

/-- `evaluate` only appends to the fold histories; it never touches the
four cached aggregate fields. -/
theorem call_preserves_caches (s : ROC) (fpr tpr : List ℚ) :
    (ROC.call s fpr tpr).1.mean_tpr = s.mean_tpr
    ∧ (ROC.call s fpr tpr).1.mean_auc = s.mean_auc
    ∧ (ROC.call s fpr tpr).1.std_tpr = s.std_tpr
    ∧ (ROC.call s fpr tpr).1.std_auc = s.std_auc := by
  unfold ROC.call
  cases auc fpr tpr <;> simp

/-- Any number of `evaluate` calls preserves the four cached fields. -/
theorem runFolds_preserves_caches (folds : List (List ℚ × List ℚ)) (s : ROC) :
    (ROC.runFolds s folds).mean_tpr = s.mean_tpr
    ∧ (ROC.runFolds s folds).mean_auc = s.mean_auc
    ∧ (ROC.runFolds s folds).std_tpr = s.std_tpr
    ∧ (ROC.runFolds s folds).std_auc = s.std_auc := by
  induction folds generalizing s with
  | nil => simp [ROC.runFolds]
  | cons b bs ih =>
    obtain ⟨i1, i2, i3, i4⟩ := ih (ROC.call s b.1 b.2).1
    obtain ⟨c1, c2, c3, c4⟩ := call_preserves_caches s b.1 b.2
    have hrun : ROC.runFolds s (b :: bs) = ROC.runFolds (ROC.call s b.1 b.2).1 bs := by
      simp [ROC.runFolds]
    rw [hrun]
    exact ⟨i1.trans c1, i2.trans c2, i3.trans c3, i4.trans c4⟩

/-- C5: once `mean()` has returned successfully, every later `mean()` call
returns the same cached pair and every later `std()` call the pair cached
by the first `std()` call, even after any number of further `evaluate`
calls have appended folds; neither recomputes nor changes the state. -/
theorem roc_mean_std_cached_after_first_call (sq : ℚ → ℚ) (s : ROC)
    (v : NpArr × ℚ) (h : (ROC.mean s).2 = Except.ok v)
    (folds : List (List ℚ × List ℚ)) :
    (ROC.mean (ROC.runFolds (ROC.std sq (ROC.mean s).1).1 folds)).2 = Except.ok v
    ∧ (ROC.mean (ROC.runFolds (ROC.std sq (ROC.mean s).1).1 folds)).1
        = ROC.runFolds (ROC.std sq (ROC.mean s).1).1 folds
    ∧ (ROC.std sq (ROC.runFolds (ROC.std sq (ROC.mean s).1).1 folds)).2
        = (ROC.std sq (ROC.mean s).1).2
    ∧ (ROC.std sq (ROC.runFolds (ROC.std sq (ROC.mean s).1).1 folds)).1
        = ROC.runFolds (ROC.std sq (ROC.mean s).1).1 folds := by
  obtain ⟨hm1, hm2⟩ := mean_ok_caches s v h
  obtain ⟨t1, t2, t3, t4⟩ := std_result sq (ROC.mean s).1
  obtain ⟨r1, r2, r3, r4⟩ := runFolds_preserves_caches folds (ROC.std sq (ROC.mean s).1).1
  have hmt := r1.trans (t3.trans hm1)
  have hma := r2.trans (t4.trans hm2)
  have hst := r3.trans t1
  have hsa := r4.trans t2
  have hmean := mean_cached _ _ _ hmt hma
  have hstd := std_cached sq _ _ _ hst hsa
  refine ⟨?_, ?_, ?_, ?_⟩
  · rw [hmean]
  · rw [hmean]
  · rw [hstd]
  · rw [hstd]

/-- Witness for C5: a concrete aggregator whose `mean` caches are
populated, one concrete further fold. -/
theorem roc_mean_std_cached_witness :
    (ROC.mean cachedExample).2 = Except.ok (NpArr.arr [0, 1], 1)
    ∧ ((ROC.mean (ROC.runFolds
          (ROC.std (fun q => q) (ROC.mean cachedExample).1).1 [([0, 1], [0, 1])])).2
        = Except.ok (NpArr.arr [0, 1], 1)
      ∧ (ROC.mean (ROC.runFolds
            (ROC.std (fun q => q) (ROC.mean cachedExample).1).1 [([0, 1], [0, 1])])).1
          = ROC.runFolds
              (ROC.std (fun q => q) (ROC.mean cachedExample).1).1 [([0, 1], [0, 1])]
      ∧ (ROC.std (fun q => q) (ROC.runFolds
            (ROC.std (fun q => q) (ROC.mean cachedExample).1).1 [([0, 1], [0, 1])])).2
          = (ROC.std (fun q => q) (ROC.mean cachedExample).1).2
      ∧ (ROC.std (fun q => q) (ROC.runFolds
            (ROC.std (fun q => q) (ROC.mean cachedExample).1).1 [([0, 1], [0, 1])])).1
          = ROC.runFolds
              (ROC.std (fun q => q) (ROC.mean cachedExample).1).1 [([0, 1], [0, 1])]) :=
  ⟨rfl, roc_mean_std_cached_after_first_call (fun q => q) cachedExample
    (NpArr.arr [0, 1], 1) rfl [([0, 1], [0, 1])]⟩

end Metrics
